import Mathlib

/-!
# Hetzner status incident scraper: model of `main.go` and its specification

The program fetches an Atom feed, loads the stored incidents from `data.json`,
adds every feed entry whose ID is not stored yet, and, when something was added,
rewrites `data.json` and records the change with git.

The Go program is embedded as pure functions over an explicit `World` (the store
file, the text the program itself printed, the external commands it ran) and an
`Env` of outcomes of the library calls whose results the program cannot decide
(network, XML and JSON codecs, file system errors, exit status of child processes,
wall clock).
-/

namespace HetznerStatus

/-! ## Data model (`main.go` lines 14-39) -/

/-- The anonymous struct of `Entry.Link`. -/
structure EntryLink where
  Href : String
deriving DecidableEq, Repr

/-- The struct `Entry`. -/
structure Entry where
  ID : String
  Updated : String
  Title : String
  Content : String
  Link : EntryLink
deriving DecidableEq, Repr

/-- The struct `Feed`. -/
structure Feed where
  Entries : List Entry
deriving DecidableEq, Repr

/-- The struct `Incident`. -/
structure Incident where
  ID : String
  Updated : String
  Title : String
  Content : String
  Link : String
deriving DecidableEq, Repr

/-- The constant `dataFile`. -/
def dataFile : String := "data.json"

/-- The bindings of an allocated Go map from string to `Incident`: a finite map, one
value per key, with no order. -/
abbrev Table := Finmap (fun _ : String => Incident)

/-- A Go value of type `map[string]Incident`: the nil map, or an allocated map. -/
inductive GoMap where
  | nil
  | table (t : Table)
deriving DecidableEq

namespace GoMap

/-- The Go expression `v, exists := m[k]`: reading a nil map finds nothing. -/
def lookup (m : GoMap) (k : String) : Option Incident :=
  match m with
  | nil => none
  | table t => t.lookup k

/-- The Go statement `m[k] = v`: it replaces or adds the binding of an allocated map
and panics on the nil map. -/
def assign (m : GoMap) (k : String) (v : Incident) : Except String GoMap :=
  match m with
  | nil => .error "assignment to entry in nil map"
  | table t => .ok (table (t.insert k v))

end GoMap

/-! ## The diff loop (`main.go` lines 63-76) -/

/-- The composite literal of lines 66-72. -/
def toIncident (entry : Entry) : Incident :=
  { ID := entry.ID
    Updated := entry.Updated
    Title := entry.Title
    Content := entry.Content
    Link := entry.Link.Href }

/-- The loop `for _, entry := range feed.Entries` of lines 64-76, started with the map
`existingIncidents` and the slice `newIncidents`; the result is both variables after the
loop, or the message of the run-time panic that stopped it. -/
def diffLoop : List Entry → GoMap → List Incident → Except String (GoMap × List Incident)
  | [], existingIncidents, newIncidents => .ok (existingIncidents, newIncidents)
  | entry :: rest, existingIncidents, newIncidents =>
    match existingIncidents.lookup entry.ID with
    | some _ => diffLoop rest existingIncidents newIncidents
    | none =>
      match existingIncidents.assign entry.ID (toIncident entry) with
      | .error msg => .error msg
      | .ok updated => diffLoop rest updated (newIncidents ++ [toIncident entry])

/-! ## The process and its surroundings -/

/-- What a run can change and what can be seen of it from outside. -/
structure World where
  /-- content of `data.json`, `none` when the file does not exist -/
  file : Option String
  /-- text the program itself wrote to standard output, oldest first -/
  stdout : List String
  /-- text the program itself wrote to standard error, oldest first -/
  stderr : List String
  /-- argument vectors of the external commands started, oldest first -/
  commands : List (List String)
deriving DecidableEq, Repr

/-- Outcomes of the calls the program does not control. -/
structure Env where
  /-- error of `http.Get(feedURL)`, `none` when it answers -/
  httpGet : Option String
  /-- error of `ioutil.ReadAll(resp.Body)` -/
  readAll : Option String
  /-- result of `xml.Unmarshal(body, &feed)` -/
  xmlUnmarshal : Except String Feed
  /-- error of `os.Open(dataFile)` other than the file not being there -/
  openErr : Option String
  /-- result of decoding a file content other than the JSON value null -/
  decodeValue : String → Except String GoMap
  /-- error of `os.Create(dataFile)` -/
  createErr : Option String
  /-- the bytes `Encode` produces for a map, indented, with the final newline -/
  jsonEncode : GoMap → String
  /-- failure of the write inside `Encode`: how many characters reached the file, and the error -/
  writeErr : Option (Nat × String)
  /-- error of `cmd.Run()` for an argument vector, `none` when the command succeeds -/
  run : List String → Option String
  /-- the value of `time.Now().Format(time.RFC3339)` -/
  now : String

/-- How a function of the program ends: it returns, it calls `os.Exit`, or the Go
run time stops the process with a panic. -/
inductive Res (α : Type) where
  | ok (a : α) (w : World)
  | exit (code : Nat) (w : World)
  | panic (msg : String) (w : World)

namespace Res

/-- Sequencing: what follows a call runs only when the call returns. -/
def bind {α β : Type} (r : Res α) (f : α → World → Res β) : Res β :=
  match r with
  | ok a w => f a w
  | exit code w => exit code w
  | panic msg w => panic msg w

/-- The world a run leaves behind. -/
def world {α : Type} : Res α → World
  | ok _ w => w
  | exit _ w => w
  | panic _ w => w

/-- The exit status of the process when `main` ends this way: 0 on return, the argument
of `os.Exit`, and 2 after a panic. -/
def status {α : Type} : Res α → Nat
  | ok _ _ => 0
  | exit code _ => code
  | panic _ _ => 2

end Res

/-- The calls `fmt.Printf` and `fmt.Println`: both write to standard output. -/
def World.print (w : World) (text : String) : World :=
  { w with stdout := w.stdout ++ [text] }

/-- The verb `%v` applied to a slice of strings. -/
def fmtArgs (args : List String) : String :=
  "[" ++ " ".intercalate args ++ "]"

/-- White space of the JSON grammar. -/
def isJSONSpace (c : Char) : Bool :=
  c == ' ' || c == '\t' || c == '\r' || c == '\n'

/-- The file content without the JSON white space around it. -/
def stripJSONSpace (content : String) : String :=
  String.mk ((content.toList.dropWhile isJSONSpace).reverse.dropWhile isJSONSpace).reverse

/-- The call `json.NewDecoder(file).Decode(&incidents)` on a nil map variable: the JSON
value null leaves the variable nil and is no error; every other content is decoded as
the environment says. -/
def jsonDecode (env : Env) (content : String) : Except String GoMap :=
  if stripJSONSpace content = "null" then .ok GoMap.nil else env.decodeValue content

/-- Result of `os.Open(dataFile)`. -/
inductive OpenResult where
  | notExist
  | failed (err : String)
  | opened (content : String)

/-- The call `os.Open(dataFile)`. -/
def osOpen (env : Env) (w : World) : OpenResult :=
  match env.openErr with
  | some err => .failed err
  | none =>
    match w.file with
    | none => .notExist
    | some content => .opened content

/-- The function `loadIncidents` (lines 86-102). -/
def loadIncidents (env : Env) (w : World) : Res GoMap :=
  match osOpen env w with
  | .notExist => .ok (GoMap.table ∅) w
  | .failed err => .exit 1 (w.print ("Error opening data file: " ++ err ++ "\n"))
  | .opened content =>
    match jsonDecode env content with
    | .error err => .exit 1 (w.print ("Error parsing JSON data: " ++ err ++ "\n"))
    | .ok incidents => .ok incidents w

/-- The function `saveIncidents` (lines 104-118): `os.Create` empties the file before
anything is encoded into it. -/
def saveIncidents (env : Env) (incidents : GoMap) (w : World) : Res Unit :=
  match env.createErr with
  | some err => .exit 1 (w.print ("Error creating data file: " ++ err ++ "\n"))
  | none =>
    let created : World := { w with file := some "" }
    match env.writeErr with
    | some (written, err) =>
      .exit 1 (World.print { created with file := some ((env.jsonEncode incidents).take written) }
        ("Error saving JSON data: " ++ err ++ "\n"))
    | none => .ok () { created with file := some (env.jsonEncode incidents) }

/-- The function `runCommand` (lines 131-139). -/
def runCommand (env : Env) (command : String) (args : List String) (w : World) : Res Unit :=
  let started : World := { w with commands := w.commands ++ [command :: args] }
  match env.run (command :: args) with
  | some err =>
    .exit 1 (started.print
      ("Error running command '" ++ command ++ " " ++ fmtArgs args ++ "': " ++ err ++ "\n"))
  | none => .ok () started

/-- The message built on line 126. -/
def commitMessage (newIncidents : List Incident) (now : String) : String :=
  "Update incidents: " ++ toString newIncidents.length ++ " new (" ++ now ++ ")"

/-- The function `commitToGit` (lines 120-129). -/
def commitToGit (env : Env) (newIncidents : List Incident) (w : World) : Res Unit :=
  (runCommand env "git"
    ["config", "--global", "user.email", "github-actions[bot]@users.noreply.github.com"] w).bind
  fun _ w1 => (runCommand env "git" ["config", "--global", "user.name", "GitHub Actions"] w1).bind
  fun _ w2 => (runCommand env "git" ["add", dataFile] w2).bind
  fun _ w3 => (runCommand env "git" ["commit", "-m", commitMessage newIncidents env.now] w3).bind
  fun _ w4 => runCommand env "git" ["push"] w4

/-- Lines 63-83 of `main`: the diff loop and the branch on its result. -/
def mainAfterLoad (env : Env) (feed : Feed) (existingIncidents : GoMap) (w : World) : Res Unit :=
  match diffLoop feed.Entries existingIncidents [] with
  | .error msg => .panic msg w
  | .ok (updated, newIncidents) =>
    if newIncidents.length > 0 then
      (saveIncidents env updated w).bind fun _ w1 => commitToGit env newIncidents w1
    else
      .ok () (w.print "No new incidents to commit.\n")

/-- The function `main` (lines 41-84). -/
def main (env : Env) (w : World) : Res Unit :=
  match env.httpGet with
  | some err => .exit 1 (w.print ("Error fetching the feed: " ++ err ++ "\n"))
  | none =>
    match env.readAll with
    | some err => .exit 1 (w.print ("Error reading response body: " ++ err ++ "\n"))
    | none =>
      match env.xmlUnmarshal with
      | .error err => .exit 1 (w.print ("Error parsing the feed: " ++ err ++ "\n"))
      | .ok feed =>
        (loadIncidents env w).bind fun existingIncidents w1 =>
          mainAfterLoad env feed existingIncidents w1

/-! ## The specification's description of the new-incidents list -/

/-- The record the specification asks for an entry: the five fields copied one by one,
the link taken from the `href` of the entry's link. Written out here from the claim, not
through the program's own conversion. -/
def specIncident (entry : Entry) : Incident :=
  Incident.mk entry.ID entry.Updated entry.Title entry.Content entry.Link.Href

/-- The list the specification describes: walk the entries in feed order and keep,
converted field for field to an `Incident`, each entry whose ID is neither a key of the
loaded store nor the ID of an entry at an earlier position (`seen` holds the IDs of the
earlier entries). -/
def specNewIncidents (store : Table) : List String → List Entry → List Incident
  | _, [] => []
  | seen, entry :: rest =>
    if entry.ID ∈ store ∨ entry.ID ∈ seen then specNewIncidents store (entry.ID :: seen) rest
    else specIncident entry :: specNewIncidents store (entry.ID :: seen) rest

/-- The invariant of the store: every key is the ID of its value. -/
def KeysMatchIDs (t : Table) : Prop :=
  ∀ k v, t.lookup k = some v → v.ID = k

/-! ## Sample data: the scenarios of the specification -/

/-- The entry of the first scenario. -/
def sampleEntry1 : Entry :=
  { ID := "e1"
    Updated := "2024-01-01T00:00:00Z"
    Title := "Incident A"
    Content := "desc"
    Link := { Href := "https://status.example/e1" } }

/-- A second entry, with the ID `e2`. -/
def sampleEntry2 : Entry :=
  { ID := "e2"
    Updated := "2024-01-02T00:00:00Z"
    Title := "Incident B"
    Content := "other"
    Link := { Href := "https://status.example/e2" } }

/-- The record the first scenario expects in the store. -/
def sampleIncident1 : Incident :=
  { ID := "e1"
    Updated := "2024-01-01T00:00:00Z"
    Title := "Incident A"
    Content := "desc"
    Link := "https://status.example/e1" }

/-- A store that already contains `e1`. -/
def sampleStore1 : Table :=
  Finmap.singleton "e1" sampleIncident1

/-- A world with an empty store on disk, before anything was printed or run. -/
def sampleWorld : World :=
  { file := some "\x7b\x7d\n", stdout := [], stderr := [], commands := [] }

/-- A sample environment in which every call succeeds and the feed has the entries `e1`
and `e2`. Its decoder knows the empty object only, and its encoder is a stand-in that
writes every record as an empty object; no statement below depends on the text of an
encoding. -/
def sampleEnv : Env :=
  { httpGet := none
    readAll := none
    xmlUnmarshal := .ok { Entries := [sampleEntry1, sampleEntry2] }
    openErr := none
    decodeValue := fun content =>
      if content = "\x7b\x7d\n" then .ok (GoMap.table ∅) else .error "unexpected end of JSON input"
    createErr := none
    jsonEncode := fun incidents =>
      if incidents = GoMap.nil then "null\n"
      else if incidents = GoMap.table ∅ then "\x7b\x7d\n"
      else "\x7b\"e1\": \x7b\x7d, \"e2\": \x7b\x7d\x7d\n"
    writeErr := none
    run := fun _ => none
    now := "2024-01-03T10:00:00Z" }

/-- The sample environment, except that `git add data.json` fails. -/
def sampleAddFails : Env :=
  { sampleEnv with
    run := fun argv =>
      if argv = ["git", "add", "data.json"] then some "exit status 128" else none }

/-- The sample environment, except that `git push` fails. -/
def samplePushFails : Env :=
  { sampleEnv with
    run := fun argv => if argv = ["git", "push"] then some "exit status 1" else none }

/-- The argument vectors of the five calls of `runCommand` in `commitToGit`, in the
order of the source (lines 121-128). -/
def gitInvocations (newIncidents : List Incident) (now : String) : List (List String) :=
  [ ["git", "config", "--global", "user.email", "github-actions[bot]@users.noreply.github.com"],
    ["git", "config", "--global", "user.name", "GitHub Actions"],
    ["git", "add", "data.json"],
    ["git", "commit", "-m", commitMessage newIncidents now],
    ["git", "push"] ]

/-- Where the text of a call went: a call that returns or panics printed nothing, a call
that exits did so with status 1 after one text on standard output; standard error is
never written. `out` and `err` are the two streams before the call. -/
def DiagOnStdout {α : Type} (out err : List String) : Res α → Prop
  | .ok _ w => w.stdout = out ∧ w.stderr = err
  | .exit code w => code = 1 ∧ w.stderr = err ∧ ∃ diag, w.stdout = out ++ [diag]
  | .panic _ w => w.stdout = out ∧ w.stderr = err

/-! ## Lemmas on the diff loop -/

/-- The conversion of lines 66-72 is the conversion the specification asks for. -/
theorem toIncident_eq_specIncident (entry : Entry) : toIncident entry = specIncident entry :=
  rfl

theorem diffLoop_table (store : Table) (entries : List Entry) :
    ∀ (t : Table) (seen : List String) (acc : List Incident),
      (∀ k, k ∈ t ↔ k ∈ store ∨ k ∈ seen) →
      ∃ t2 : Table,
        diffLoop entries (GoMap.table t) acc
          = .ok (GoMap.table t2, acc ++ specNewIncidents store seen entries) ∧
        (∀ k v, t.lookup k = some v → t2.lookup k = some v) ∧
        (∀ k, t.lookup k = none →
          t2.lookup k = (entries.find? (fun e => e.ID = k)).map toIncident) := by
  induction entries with
  | nil =>
    intro t seen acc _
    exact ⟨t, by simp [diffLoop, specNewIncidents], fun _ _ h => h, fun k h => by simpa using h⟩
  | cons e rest ih =>
    intro t seen acc hinv
    cases hl : t.lookup e.ID with
    | some v =>
      have hmem : e.ID ∈ t := Finmap.mem_iff.2 ⟨v, hl⟩
      have hspec : e.ID ∈ store ∨ e.ID ∈ seen := (hinv _).1 hmem
      obtain ⟨t2, h1, h2, h3⟩ := ih t (e.ID :: seen) acc (by
        intro k
        rw [List.mem_cons]
        constructor
        · intro hk
          rcases (hinv k).1 hk with h | h
          · exact Or.inl h
          · exact Or.inr (Or.inr h)
        · rintro (h | h | h)
          · exact (hinv k).2 (Or.inl h)
          · exact h ▸ hmem
          · exact (hinv k).2 (Or.inr h))
      refine ⟨t2, ?_, h2, ?_⟩
      · simp only [diffLoop, GoMap.lookup, hl, specNewIncidents, ← toIncident_eq_specIncident, if_pos hspec]
        exact h1
      · intro k hk
        have hne : e.ID ≠ k := by
          intro h
          rw [h] at hl
          rw [hl] at hk
          cases hk
        rw [h3 k hk, List.find?_cons_of_neg]
        simpa using hne
    | none =>
      have hnot : e.ID ∉ t := Finmap.lookup_eq_none.1 hl
      have hspec : ¬ (e.ID ∈ store ∨ e.ID ∈ seen) := fun h => hnot ((hinv _).2 h)
      obtain ⟨t2, h1, h2, h3⟩ := ih (t.insert e.ID (toIncident e)) (e.ID :: seen)
        (acc ++ [toIncident e]) (by
        intro k
        rw [Finmap.mem_insert, List.mem_cons, hinv k]
        tauto)
      refine ⟨t2, ?_, ?_, ?_⟩
      · simp only [diffLoop, GoMap.lookup, GoMap.assign, hl, specNewIncidents, ← toIncident_eq_specIncident, if_neg hspec]
        rw [h1]
        simp
      · intro k v hk
        have hne : k ≠ e.ID := by
          intro h
          rw [h, hl] at hk
          cases hk
        exact h2 k v (by rw [Finmap.lookup_insert_of_ne _ hne]; exact hk)
      · intro k hk
        by_cases hke : e.ID = k
        · subst hke
          rw [h2 e.ID (toIncident e) (Finmap.lookup_insert _)]
          simp
        · rw [h3 k (by rw [Finmap.lookup_insert_of_ne _ (Ne.symm hke)]; exact hk),
            List.find?_cons_of_neg]
          simpa using hke

theorem specNewIncidents_sublist (store : Table) (entries : List Entry) :
    ∀ seen, (specNewIncidents store seen entries).Sublist (entries.map toIncident) := by
  induction entries with
  | nil => intro seen; simp [specNewIncidents]
  | cons e rest ih =>
    intro seen
    simp only [specNewIncidents, ← toIncident_eq_specIncident, List.map_cons]
    split
    · exact (ih _).cons _
    · exact (ih _).cons₂ _

theorem specNewIncidents_ids (store : Table) (entries : List Entry) :
    ∀ seen k, k ∈ (specNewIncidents store seen entries).map (fun i => i.ID) ↔
      k ∈ entries.map (fun e => e.ID) ∧ k ∉ store ∧ k ∉ seen := by
  induction entries with
  | nil => intro seen k; simp [specNewIncidents]
  | cons e rest ih =>
    intro seen k
    simp only [specNewIncidents, ← toIncident_eq_specIncident]
    split
    · rename_i h
      rw [ih, List.map_cons, List.mem_cons, List.mem_cons]
      constructor
      · rintro ⟨h1, h2, h3⟩
        exact ⟨Or.inr h1, h2, fun h4 => h3 (Or.inr h4)⟩
      · rintro ⟨h1 | h1, h2, h3⟩
        · subst h1
          rcases h with h | h
          · exact absurd h h2
          · exact absurd h h3
        · refine ⟨h1, h2, ?_⟩
          rintro (h4 | h4)
          · subst h4
            rcases h with h | h
            · exact h2 h
            · exact h3 h
          · exact h3 h4
    · rename_i h
      rw [List.map_cons, List.mem_cons, ih, List.map_cons, List.mem_cons, List.mem_cons]
      simp only [toIncident]
      constructor
      · rintro (h1 | ⟨h1, h2, h3⟩)
        · subst h1
          exact ⟨Or.inl rfl, fun h2 => h (Or.inl h2), fun h2 => h (Or.inr h2)⟩
        · exact ⟨Or.inr h1, h2, fun h4 => h3 (Or.inr h4)⟩
      · rintro ⟨h1 | h1, h2, h3⟩
        · exact Or.inl h1
        · by_cases hk : k = e.ID
          · exact Or.inl hk
          · refine Or.inr ⟨h1, h2, ?_⟩
            rintro (h4 | h4)
            · exact hk h4
            · exact h3 h4

theorem specNewIncidents_nodup (store : Table) (entries : List Entry) :
    ∀ seen, ((specNewIncidents store seen entries).map (fun i => i.ID)).Nodup := by
  induction entries with
  | nil => intro seen; simp [specNewIncidents]
  | cons e rest ih =>
    intro seen
    simp only [specNewIncidents, ← toIncident_eq_specIncident]
    split
    · exact ih _
    · rw [List.map_cons, List.nodup_cons]
      refine ⟨?_, ih _⟩
      rw [specNewIncidents_ids]
      simp [toIncident]

theorem diffLoop_ok (store : Table) (entries : List Entry) :
    ∃ updated : Table,
      diffLoop entries (GoMap.table store) []
        = .ok (GoMap.table updated, specNewIncidents store [] entries) ∧
      (∀ k v, store.lookup k = some v → updated.lookup k = some v) ∧
      (∀ k, k ∉ store →
        updated.lookup k = (entries.find? (fun e => e.ID = k)).map toIncident) ∧
      (∀ k, k ∈ updated ↔ k ∈ store ∨ k ∈ entries.map (fun e => e.ID)) := by
  obtain ⟨updated, h1, h2, h3⟩ := diffLoop_table store entries store [] [] (by simp)
  refine ⟨updated, by simpa using h1, h2, fun k hk => h3 k (Finmap.lookup_eq_none.2 hk), ?_⟩
  intro k
  by_cases hk : k ∈ store
  · obtain ⟨v, hv⟩ := Finmap.mem_iff.1 hk
    exact ⟨fun _ => Or.inl hk, fun _ => Finmap.mem_iff.2 ⟨v, h2 k v hv⟩⟩
  · rw [← Finmap.lookup_isSome, h3 k (Finmap.lookup_eq_none.2 hk)]
    simp [hk]

theorem specNewIncidents_find (store : Table) (entries : List Entry) (k : String)
    (hk : k ∉ store) :
    ∀ seen, k ∉ seen →
      (specNewIncidents store seen entries).find? (fun i => i.ID = k)
        = (entries.find? (fun e => e.ID = k)).map toIncident := by
  induction entries with
  | nil => intro seen _; simp [specNewIncidents]
  | cons e rest ih =>
    intro seen hseen
    simp only [specNewIncidents, ← toIncident_eq_specIncident]
    by_cases hek : e.ID = k
    · subst hek
      rw [if_neg (by tauto)]
      simp [toIncident]
    · have hrec := ih (e.ID :: seen) (by
        rw [List.mem_cons]
        rintro (h | h)
        · exact hek h.symm
        · exact hseen h)
      have hek2 : ¬ (toIncident e).ID = k := hek
      split
      · simpa [List.find?_cons, hek] using hrec
      · simpa [List.find?_cons, hek, hek2] using hrec

theorem diffLoop_known (entries : List Entry) (existing : GoMap)
    (h : ∀ e ∈ entries, (existing.lookup e.ID).isSome) (acc : List Incident) :
    diffLoop entries existing acc = .ok (existing, acc) := by
  induction entries with
  | nil => rfl
  | cons e rest ih =>
    have he := h e (List.mem_cons_self _ _)
    obtain ⟨v, hv⟩ := Option.isSome_iff_exists.1 he
    simp only [diffLoop, hv]
    exact ih (fun x hx => h x (List.mem_cons_of_mem _ hx))

theorem mainAfterLoad_known (env : Env) (feed : Feed) (existing : GoMap) (w : World)
    (h : ∀ e ∈ feed.Entries, (existing.lookup e.ID).isSome) :
    mainAfterLoad env feed existing w = .ok () (w.print "No new incidents to commit.\n") := by
  simp [mainAfterLoad, diffLoop_known feed.Entries existing h]

theorem diffLoop_nil (e : Entry) (rest : List Entry) (acc : List Incident) :
    diffLoop (e :: rest) GoMap.nil acc = .error "assignment to entry in nil map" := by
  simp [diffLoop, GoMap.lookup, GoMap.assign]

theorem keysMatchIDs_diffLoop (store updated : Table) (entries : List Entry)
    (h : KeysMatchIDs store)
    (h2 : ∀ k v, store.lookup k = some v → updated.lookup k = some v)
    (h3 : ∀ k, k ∉ store →
        updated.lookup k = (entries.find? (fun e => e.ID = k)).map toIncident) :
    KeysMatchIDs updated := by
  intro k v hv
  by_cases hk : k ∈ store
  · obtain ⟨v2, hv2⟩ := Finmap.mem_iff.1 hk
    have := h2 k v2 hv2
    rw [hv] at this
    cases this
    exact h k v hv2
  · rw [h3 k hk] at hv
    obtain ⟨e, he, rfl⟩ := Option.map_eq_some'.1 hv
    have := List.find?_some he
    simpa [toIncident] using this

/-- C1: for every loaded store and every feed, the new-incidents list the diff loop
builds is the list of the specification: the entries, in feed order, whose ID is no key
of the loaded store and did not occur earlier in the feed, each converted field for field
to the incident with the entry's ID, Updated, Title and Content and with Link the `href`
of the entry's link. So it is a sublist of the feed converted in that way, holds no ID of
the loaded store and no ID twice, and the conversion the loop applies copies each of the
five fields. With the feed `e1, e2` and a store holding `e1` the list is the one record
of `e2`, written out. -/
theorem new_incidents_are_the_unseen_entries (store : Table) (feed : List Entry) :
    (diffLoop feed (GoMap.table store) []).map Prod.snd
      = .ok (specNewIncidents store [] feed) ∧
    (specNewIncidents store [] feed).Sublist
      (feed.map fun e => Incident.mk e.ID e.Updated e.Title e.Content e.Link.Href) ∧
    (∀ i ∈ specNewIncidents store [] feed,
      ∃ e ∈ feed, e.ID ∉ store ∧
        i.ID = e.ID ∧ i.Updated = e.Updated ∧ i.Title = e.Title ∧
        i.Content = e.Content ∧ i.Link = e.Link.Href) ∧
    (∀ i ∈ specNewIncidents store [] feed, i.ID ∉ store) ∧
    ((specNewIncidents store [] feed).map (fun i => i.ID)).Nodup ∧
    (∀ e : Entry,
      (toIncident e).ID = e.ID ∧ (toIncident e).Updated = e.Updated ∧
      (toIncident e).Title = e.Title ∧ (toIncident e).Content = e.Content ∧
      (toIncident e).Link = e.Link.Href) ∧
    (diffLoop [sampleEntry1, sampleEntry2] (GoMap.table sampleStore1) []).map Prod.snd
      = .ok [{ ID := "e2"
               Updated := "2024-01-02T00:00:00Z"
               Title := "Incident B"
               Content := "other"
               Link := "https://status.example/e2" }] := by
  obtain ⟨updated, h1, -⟩ := diffLoop_ok store feed
  have hstore : ∀ i ∈ specNewIncidents store [] feed, i.ID ∉ store := by
    intro i hi
    exact ((specNewIncidents_ids store feed [] i.ID).1 (List.mem_map_of_mem _ hi)).2.1
  refine ⟨by rw [h1]; rfl, specNewIncidents_sublist store feed [], ?_, hstore,
    specNewIncidents_nodup store feed [], fun e => ⟨rfl, rfl, rfl, rfl, rfl⟩, rfl⟩
  intro i hi
  have hsub := (specNewIncidents_sublist store feed []).subset hi
  obtain ⟨e, he, rfl⟩ := List.mem_map.1 hsub
  exact ⟨e, he, hstore _ hi, rfl, rfl, rfl, rfl, rfl⟩

/-- C2: for every loaded store and every feed, the store after the diff loop is the
union of the loaded store and the new records keyed by ID. Its keys are the keys of the
loaded store and the IDs of the feed; a key of the loaded store keeps its record whatever
the feed says; every other key has the record with the ID, Updated, Title, Content and
link `href` of the first feed entry with that ID, which is the record of the
new-incidents list with that ID. An empty store and the one-entry feed of the scenario
give the store with that one record, written out. -/
theorem store_after_diff_is_union (store : Table) (feed : List Entry) :
    ∃ (updated : Table) (newIncidents : List Incident),
      diffLoop feed (GoMap.table store) [] = .ok (GoMap.table updated, newIncidents) ∧
      updated.keys = store.keys ∪ (feed.map (fun e => e.ID)).toFinset ∧
      (∀ k v, store.lookup k = some v → updated.lookup k = some v) ∧
      (∀ k, k ∉ store →
        updated.lookup k
          = (feed.find? (fun e => e.ID = k)).map
              (fun e => Incident.mk e.ID e.Updated e.Title e.Content e.Link.Href) ∧
        updated.lookup k = newIncidents.find? (fun i => i.ID = k)) ∧
      (∀ k, k ∉ store → k ∈ feed.map (fun e => e.ID) →
        ∃ e v, feed.find? (fun e => e.ID = k) = some e ∧ updated.lookup k = some v ∧
          v.ID = k ∧ v.Updated = e.Updated ∧ v.Title = e.Title ∧
          v.Content = e.Content ∧ v.Link = e.Link.Href) ∧
      diffLoop [sampleEntry1] (GoMap.table ∅) []
        = .ok (GoMap.table (Finmap.singleton "e1"
                { ID := "e1"
                  Updated := "2024-01-01T00:00:00Z"
                  Title := "Incident A"
                  Content := "desc"
                  Link := "https://status.example/e1" }),
              [{ ID := "e1"
                 Updated := "2024-01-01T00:00:00Z"
                 Title := "Incident A"
                 Content := "desc"
                 Link := "https://status.example/e1" }]) := by
  obtain ⟨updated, h1, h2, h3, h4⟩ := diffLoop_ok store feed
  refine ⟨updated, _, h1, ?_, h2, ?_, ?_, rfl⟩
  · ext k
    rw [Finmap.mem_keys, h4 k]
    simp [Finmap.mem_keys]
  · intro k hk
    exact ⟨h3 k hk, by rw [h3 k hk, specNewIncidents_find store feed k hk [] (by simp)]⟩
  · intro k hk hfeed
    have hmem : k ∈ updated := (h4 k).2 (Or.inr hfeed)
    obtain ⟨v, hv⟩ := Finmap.mem_iff.1 hmem
    have hv2 := hv
    rw [h3 k hk] at hv2
    obtain ⟨e, he, rfl⟩ := Option.map_eq_some'.1 hv2
    have hid : e.ID = k := by simpa using List.find?_some he
    exact ⟨e, _, he, hv, hid, rfl, rfl, rfl, rfl⟩

/-- C3: when every entry of the feed has an ID that is already a key of the loaded
store (the empty feed included), the run of `main` after the load step adds nothing:
the loop leaves the store as loaded and the new-incidents list empty, `main` returns
(status 0), the store file and the list of external commands are as before, nothing is
written to standard error, and standard output gained the one line
`No new incidents to commit.` -/
theorem nothing_new_is_a_noop (env : Env) (feed : Feed) (existing : GoMap) (w : World)
    (h : ∀ e ∈ feed.Entries, (existing.lookup e.ID).isSome) :
    diffLoop feed.Entries existing [] = .ok (existing, []) ∧
    mainAfterLoad env feed existing w = .ok () (w.print "No new incidents to commit.\n") ∧
    (mainAfterLoad env feed existing w).status = 0 ∧
    (mainAfterLoad env feed existing w).world.file = w.file ∧
    (mainAfterLoad env feed existing w).world.commands = w.commands ∧
    (mainAfterLoad env feed existing w).world.stderr = w.stderr ∧
    (mainAfterLoad env feed existing w).world.stdout
      = w.stdout ++ ["No new incidents to commit.\n"] := by
  have hm := mainAfterLoad_known env feed existing w h
  refine ⟨diffLoop_known _ _ h [], hm, ?_, ?_, ?_, ?_, ?_⟩ <;> rw [hm] <;> rfl

/-- C4: the pipeline is idempotent. For every store and feed the first pass of the diff
loop either stops with the nil-map panic (only for the nil map and a feed that is not
empty) or produces a store; a second pass over the same feed from that store adds
nothing and leaves it unchanged, so the second run of `main` takes the branch that only
prints the no-op line: no write of the store file, no external command. -/
theorem second_run_is_a_noop (S : GoMap) (F : List Entry) :
    (S = GoMap.nil ∧ F ≠ [] ∧ diffLoop F S [] = .error "assignment to entry in nil map") ∨
    ∃ (S2 : GoMap) (newIncidents : List Incident),
      diffLoop F S [] = .ok (S2, newIncidents) ∧
      diffLoop F S2 [] = .ok (S2, []) ∧
      ∀ (env : Env) (w : World),
        mainAfterLoad env ⟨F⟩ S2 w = .ok () (w.print "No new incidents to commit.\n") ∧
        (mainAfterLoad env ⟨F⟩ S2 w).world.file = w.file ∧
        (mainAfterLoad env ⟨F⟩ S2 w).world.commands = w.commands := by
  cases S with
  | nil =>
    cases F with
    | nil =>
      refine Or.inr ⟨GoMap.nil, [], rfl, rfl, fun env w => ?_⟩
      have hm := mainAfterLoad_known env ⟨[]⟩ GoMap.nil w (by simp)
      exact ⟨hm, by rw [hm]; rfl, by rw [hm]; rfl⟩
    | cons e rest => exact Or.inl ⟨rfl, by simp, diffLoop_nil e rest []⟩
  | table store =>
    obtain ⟨updated, h1, -, -, h4⟩ := diffLoop_ok store F
    have hk : ∀ e ∈ F, ((GoMap.table updated).lookup e.ID).isSome := by
      intro e he
      exact Finmap.lookup_isSome.2 ((h4 e.ID).2 (Or.inr (List.mem_map_of_mem _ he)))
    refine Or.inr ⟨GoMap.table updated, _, h1, diffLoop_known F _ hk [], fun env w => ?_⟩
    have hm := mainAfterLoad_known env ⟨F⟩ (GoMap.table updated) w hk
    exact ⟨hm, by rw [hm]; rfl, by rw [hm]; rfl⟩

/-- C3 at a sample: the store holds `e1` and the feed is the entry `e1`. -/
theorem nothing_new_is_a_noop_witness :
    (∀ e ∈ (Feed.mk [sampleEntry1]).Entries,
      ((GoMap.table sampleStore1).lookup e.ID).isSome) ∧
    mainAfterLoad sampleEnv ⟨[sampleEntry1]⟩ (GoMap.table sampleStore1) sampleWorld
      = .ok () (sampleWorld.print "No new incidents to commit.\n") :=
  ⟨by decide,
    (nothing_new_is_a_noop sampleEnv ⟨[sampleEntry1]⟩ (GoMap.table sampleStore1) sampleWorld
      (by decide)).2.1⟩

/-- C9: the diff loop keeps the invariant of the store, every key is the ID of its
value. The store `loadIncidents` makes for a missing file is empty, the loop started
from the empty store ends with a store that has the invariant, and started from a
loaded store that has it the loop ends with a store that has it too. -/
theorem diff_loop_keeps_keys_equal_to_ids (store : Table) (feed : List Entry)
    (h : KeysMatchIDs store) :
    (∀ (env : Env) (w : World), env.openErr = none → w.file = none →
      loadIncidents env w = .ok (GoMap.table ∅) w) ∧
    (∃ (updated : Table) (newIncidents : List Incident),
      diffLoop feed (GoMap.table ∅) [] = .ok (GoMap.table updated, newIncidents) ∧
      KeysMatchIDs updated) ∧
    (∃ (updated : Table) (newIncidents : List Incident),
      diffLoop feed (GoMap.table store) [] = .ok (GoMap.table updated, newIncidents) ∧
      KeysMatchIDs updated) := by
  refine ⟨?_, ?_, ?_⟩
  · intro env w ho hw
    simp [loadIncidents, osOpen, ho, hw]
  · obtain ⟨updated, h1, h2, h3, -⟩ := diffLoop_ok ∅ feed
    exact ⟨updated, _, h1, keysMatchIDs_diffLoop ∅ updated feed
      (fun k v hv => by simp at hv) h2 h3⟩
  · obtain ⟨updated, h1, h2, h3, -⟩ := diffLoop_ok store feed
    exact ⟨updated, _, h1, keysMatchIDs_diffLoop store updated feed h h2 h3⟩

/-- The sample store has the invariant. -/
theorem keysMatchIDs_sampleStore1 : KeysMatchIDs sampleStore1 := by
  intro k v hv
  by_cases hk : k = "e1"
  · subst hk
    simp [sampleStore1, sampleIncident1] at hv
    rw [← hv]
  · have hmem : k ∈ sampleStore1 := Finmap.mem_iff.2 ⟨v, hv⟩
    exact absurd ((Finmap.mem_singleton k "e1" sampleIncident1).1 hmem) hk

/-- C9 at a sample: the store holds `e1` and the feed is `e1, e2`. -/
theorem diff_loop_keeps_keys_equal_to_ids_witness :
    KeysMatchIDs sampleStore1 ∧
    ∃ (updated : Table) (newIncidents : List Incident),
      diffLoop [sampleEntry1, sampleEntry2] (GoMap.table sampleStore1) []
        = .ok (GoMap.table updated, newIncidents) ∧
      KeysMatchIDs updated :=
  ⟨keysMatchIDs_sampleStore1,
    (diff_loop_keeps_keys_equal_to_ids sampleStore1 [sampleEntry1, sampleEntry2]
      keysMatchIDs_sampleStore1).2.2⟩

theorem specNewIncidents_length (store updated : Table) (feed : List Entry)
    (h4 : ∀ k, k ∈ updated ↔ k ∈ store ∨ k ∈ feed.map (fun e => e.ID)) :
    (specNewIncidents store [] feed).length = (updated.keys \ store.keys).card := by
  have hset : ((specNewIncidents store [] feed).map (fun i => i.ID)).toFinset
      = updated.keys \ store.keys := by
    ext k
    rw [List.mem_toFinset, specNewIncidents_ids, Finset.mem_sdiff, Finmap.mem_keys,
      Finmap.mem_keys, h4 k]
    simp only [List.not_mem_nil, not_false_eq_true, and_true]
    tauto
  rw [← hset, List.toFinset_card_of_nodup (specNewIncidents_nodup store feed [])]
  simp

theorem commitToGit_fourth (env : Env) (newIncidents : List Incident) (w : World)
    (h1 : env.run ["git", "config", "--global", "user.email",
      "github-actions[bot]@users.noreply.github.com"] = none)
    (h2 : env.run ["git", "config", "--global", "user.name", "GitHub Actions"] = none)
    (h3 : env.run ["git", "add", "data.json"] = none) :
    (commitToGit env newIncidents w).world.commands[w.commands.length + 3]?
      = some ["git", "commit", "-m", commitMessage newIncidents env.now] := by
  simp only [commitToGit, runCommand, dataFile, h1, h2, h3, Res.bind]
  cases env.run ["git", "commit", "-m", commitMessage newIncidents env.now] with
  | some err =>
    simp only [Res.world, World.print, Res.bind, List.append_assoc]
    rw [List.getElem?_append_right (Nat.le_add_right _ _)]
    simp
  | none =>
    cases env.run ["git", "push"] with
    | some err =>
      simp only [Res.world, World.print, Res.bind, List.append_assoc]
      rw [List.getElem?_append_right (Nat.le_add_right _ _)]
      simp
    | none =>
      simp only [Res.world, Res.bind, List.append_assoc]
      rw [List.getElem?_append_right (Nat.le_add_right _ _)]
      simp

/-- C8: for every loaded store, every feed with at least one entry whose ID is not a
key of the store, and every time stamp, the loop produces a list of new incidents that
is not empty, its length N is the number of keys of the resulting store that were no
keys of the loaded store, and the fourth external command of the run, reached when the
store was saved and the three commands before it succeeded, is `git commit -m` with
the message `Update incidents: N new (t)`, t being the time stamp. -/
theorem commit_message_counts_new_incidents (store : Table) (feed : List Entry)
    (h : ∃ e ∈ feed, e.ID ∉ store) :
    ∃ (updated : Table) (newIncidents : List Incident),
      diffLoop feed (GoMap.table store) [] = .ok (GoMap.table updated, newIncidents) ∧
      0 < newIncidents.length ∧
      newIncidents.length = (updated.keys \ store.keys).card ∧
      ∀ (env : Env) (w : World), env.createErr = none → env.writeErr = none →
        env.run ["git", "config", "--global", "user.email",
          "github-actions[bot]@users.noreply.github.com"] = none →
        env.run ["git", "config", "--global", "user.name", "GitHub Actions"] = none →
        env.run ["git", "add", "data.json"] = none →
        (mainAfterLoad env ⟨feed⟩ (GoMap.table store) w).world.commands[w.commands.length + 3]?
          = some ["git", "commit", "-m",
              "Update incidents: " ++ toString newIncidents.length
                ++ " new (" ++ env.now ++ ")"] := by
  obtain ⟨updated, h1, -, -, h4⟩ := diffLoop_ok store feed
  have hpos : 0 < (specNewIncidents store [] feed).length := by
    obtain ⟨e, he, hne⟩ := h
    have hmem : e.ID ∈ (specNewIncidents store [] feed).map (fun i => i.ID) :=
      (specNewIncidents_ids store feed [] e.ID).2
        ⟨List.mem_map_of_mem _ he, hne, by simp⟩
    have := List.length_pos_of_mem hmem
    simpa using this
  refine ⟨updated, _, h1, hpos, specNewIncidents_length store updated feed h4, ?_⟩
  intro env w hc hw r1 r2 r3
  have := commitToGit_fourth env (specNewIncidents store [] feed)
    { w with file := some (env.jsonEncode (GoMap.table updated)) } r1 r2 r3
  simpa [mainAfterLoad, h1, hpos, saveIncidents, hc, hw, Res.bind, commitMessage] using this

/-- C8 at the two scenarios: the feed `e1, e2` with a store holding `e1`, and a
one-entry feed with an empty store, both give a message with `1 new`. -/
theorem commit_message_counts_new_incidents_witness :
    (∃ e ∈ [sampleEntry1, sampleEntry2], e.ID ∉ sampleStore1) ∧
    (∃ (updated : Table) (newIncidents : List Incident),
      diffLoop [sampleEntry1, sampleEntry2] (GoMap.table sampleStore1) []
        = .ok (GoMap.table updated, newIncidents) ∧
      0 < newIncidents.length ∧
      newIncidents.length = (updated.keys \ sampleStore1.keys).card) ∧
    (mainAfterLoad sampleEnv ⟨[sampleEntry1, sampleEntry2]⟩ (GoMap.table sampleStore1)
        sampleWorld).world.commands[3]?
      = some ["git", "commit", "-m", "Update incidents: 1 new (2024-01-03T10:00:00Z)"] ∧
    (mainAfterLoad sampleEnv ⟨[sampleEntry1]⟩ (GoMap.table ∅) sampleWorld).world.commands[3]?
      = some ["git", "commit", "-m", "Update incidents: 1 new (2024-01-03T10:00:00Z)"] := by
  have hx : ∃ e ∈ [sampleEntry1, sampleEntry2], e.ID ∉ sampleStore1 :=
    ⟨sampleEntry2, by decide, by decide⟩
  obtain ⟨updated, newIncidents, h1, h2, h3, -⟩ :=
    commit_message_counts_new_incidents sampleStore1 [sampleEntry1, sampleEntry2] hx
  exact ⟨hx, ⟨updated, newIncidents, h1, h2, h3⟩, by decide, by decide⟩

theorem commitToGit_frame (env : Env) (newIncidents : List Incident) (w : World) :
    (commitToGit env newIncidents w).world.file = w.file ∧
    (commitToGit env newIncidents w).world.stderr = w.stderr := by
  simp only [commitToGit, runCommand, Res.bind]
  cases env.run ["git", "config", "--global", "user.email",
      "github-actions[bot]@users.noreply.github.com"] <;>
    cases env.run ["git", "config", "--global", "user.name", "GitHub Actions"] <;>
    cases env.run ["git", "add", dataFile] <;>
    cases env.run ["git", "commit", "-m", commitMessage newIncidents env.now] <;>
    cases env.run ["git", "push"] <;>
    simp [Res.world, World.print]

/-- C7: `commitToGit` runs its five commands in the order of the source and stops at
the first one that fails. When none fails all five are run, in that order, and the
function returns. When the command at position i is the first that fails, the commands
run are the first i+1 of the five and no later one, the one diagnostic is printed, which
names `git` and, between square brackets and separated by blanks, the arguments of the
failed command, followed by the error, and the process exits with status 1.
In every case the store file keeps the content it had when `commitToGit` was called,
the content `saveIncidents` wrote. -/
theorem commit_stops_at_first_failing_command (env : Env) (newIncidents : List Incident)
    (w : World) :
    ((∀ c ∈ gitInvocations newIncidents env.now, env.run c = none) →
      commitToGit env newIncidents w
        = .ok () { w with commands := w.commands ++ gitInvocations newIncidents env.now }) ∧
    (∀ (i : Nat) (c : List String) (err : String),
      (gitInvocations newIncidents env.now)[i]? = some c →
      env.run c = some err →
      (∀ (j : Nat) (d : List String), j < i →
        (gitInvocations newIncidents env.now)[j]? = some d → env.run d = none) →
      commitToGit env newIncidents w
        = .exit 1
            { file := w.file
              stdout := w.stdout ++
                ["Error running command '" ++ "git" ++ " "
                  ++ ("[" ++ " ".intercalate c.tail ++ "]") ++ "': " ++ err ++ "\n"]
              stderr := w.stderr
              commands := w.commands ++ (gitInvocations newIncidents env.now).take (i + 1) }) ∧
    (commitToGit env newIncidents w).world.file = w.file := by
  refine ⟨?_, ?_, (commitToGit_frame env newIncidents w).1⟩
  · intro h
    simp only [gitInvocations, List.mem_cons, List.mem_singleton, List.not_mem_nil, or_false,
      forall_eq_or_imp, forall_eq] at h
    obtain ⟨h1, h2, h3, h4, h5⟩ := h
    simp [commitToGit, runCommand, Res.bind, dataFile, h1, h2, h3, h4, h5, gitInvocations]
  · intro i c err hc herr hprev
    have p0 := hprev 0
    have p1 := hprev 1
    have p2 := hprev 2
    have p3 := hprev 3
    rcases i with _ | _ | _ | _ | _ | i
    · simp only [gitInvocations, List.getElem?_cons_zero, Option.some.injEq] at hc
      subst hc
      simp [commitToGit, runCommand, Res.bind, herr, World.print, fmtArgs, gitInvocations]
    · simp only [gitInvocations, List.getElem?_cons_succ, List.getElem?_cons_zero,
        Option.some.injEq] at hc
      subst hc
      have q0 := p0 ["git", "config", "--global", "user.email",
        "github-actions[bot]@users.noreply.github.com"] (by omega) rfl
      simp [commitToGit, runCommand, Res.bind, herr, q0, World.print, fmtArgs, gitInvocations]
    · simp only [gitInvocations, List.getElem?_cons_succ, List.getElem?_cons_zero,
        Option.some.injEq] at hc
      subst hc
      have q0 := p0 ["git", "config", "--global", "user.email",
        "github-actions[bot]@users.noreply.github.com"] (by omega) rfl
      have q1 := p1 ["git", "config", "--global", "user.name", "GitHub Actions"] (by omega) rfl
      simp [commitToGit, runCommand, Res.bind, herr, q0, q1, World.print, fmtArgs, gitInvocations,
        dataFile]
    · simp only [gitInvocations, List.getElem?_cons_succ, List.getElem?_cons_zero,
        Option.some.injEq] at hc
      subst hc
      have q0 := p0 ["git", "config", "--global", "user.email",
        "github-actions[bot]@users.noreply.github.com"] (by omega) rfl
      have q1 := p1 ["git", "config", "--global", "user.name", "GitHub Actions"] (by omega) rfl
      have q2 := p2 ["git", "add", "data.json"] (by omega) rfl
      simp [commitToGit, runCommand, Res.bind, herr, q0, q1, q2, World.print, fmtArgs, gitInvocations,
        dataFile]
    · simp only [gitInvocations, List.getElem?_cons_succ, List.getElem?_cons_zero,
        Option.some.injEq] at hc
      subst hc
      have q0 := p0 ["git", "config", "--global", "user.email",
        "github-actions[bot]@users.noreply.github.com"] (by omega) rfl
      have q1 := p1 ["git", "config", "--global", "user.name", "GitHub Actions"] (by omega) rfl
      have q2 := p2 ["git", "add", "data.json"] (by omega) rfl
      have q3 := p3 ["git", "commit", "-m", commitMessage newIncidents env.now] (by omega) rfl
      simp [commitToGit, runCommand, Res.bind, herr, q0, q1, q2, q3, World.print, fmtArgs,
        gitInvocations, dataFile]
    · simp [gitInvocations] at hc

/-- C7 at two samples. When the first four commands succeed and `git push` fails, all
five were run and the diagnostic is `Error running command 'git [push]': exit status 1`.
When `git add data.json` is the first to fail, the first three were run, neither commit
nor push, and the diagnostic names `git [add data.json]`. Both exit with status 1 and
leave the store file as it was. -/
theorem commit_stops_at_first_failing_command_witness :
    (gitInvocations [sampleIncident1] samplePushFails.now)[4]? = some ["git", "push"] ∧
    samplePushFails.run ["git", "push"] = some "exit status 1" ∧
    commitToGit samplePushFails [sampleIncident1] sampleWorld
      = .exit 1
          { file := some "\x7b\x7d\n"
            stdout := ["Error running command 'git [push]': exit status 1\n"]
            stderr := []
            commands :=
              [ ["git", "config", "--global", "user.email",
                  "github-actions[bot]@users.noreply.github.com"],
                ["git", "config", "--global", "user.name", "GitHub Actions"],
                ["git", "add", "data.json"],
                ["git", "commit", "-m", "Update incidents: 1 new (2024-01-03T10:00:00Z)"],
                ["git", "push"] ] } ∧
    commitToGit sampleAddFails [sampleIncident1] sampleWorld
      = .exit 1
          { file := some "\x7b\x7d\n"
            stdout := ["Error running command 'git [add data.json]': exit status 128\n"]
            stderr := []
            commands :=
              [ ["git", "config", "--global", "user.email",
                  "github-actions[bot]@users.noreply.github.com"],
                ["git", "config", "--global", "user.name", "GitHub Actions"],
                ["git", "add", "data.json"] ] } :=
  ⟨rfl, rfl,
    ((commit_stops_at_first_failing_command samplePushFails [sampleIncident1] sampleWorld).2.1
      4 ["git", "push"] "exit status 1" rfl rfl (by
        intro j d hj hd
        interval_cases j <;> simp [gitInvocations] at hd <;> subst hd <;> rfl)).trans
      (congrArg (Res.exit 1) (by decide)),
    ((commit_stops_at_first_failing_command sampleAddFails [sampleIncident1] sampleWorld).2.1
      2 ["git", "add", "data.json"] "exit status 128" rfl rfl (by
        intro j d hj hd
        interval_cases j <;> simp [gitInvocations] at hd <;> subst hd <;> rfl)).trans
      (congrArg (Res.exit 1) (by decide))⟩

theorem DiagOnStdout.bind {α β : Type} {out err : List String} {r : Res α}
    {f : α → World → Res β} (hr : DiagOnStdout out err r)
    (hf : ∀ a w, w.stdout = out → w.stderr = err → DiagOnStdout out err (f a w)) :
    DiagOnStdout out err (r.bind f) := by
  cases r with
  | ok a w => exact hf a w hr.1 hr.2
  | exit code w => exact hr
  | panic msg w => exact hr

theorem DiagOnStdout.exit {α : Type} {out err : List String} {r : Res α}
    (h : DiagOnStdout out err r) :
    r.world.stderr = err ∧
    ∀ code w2, r = .exit code w2 → code = 1 ∧ ∃ diag, w2.stdout = out ++ [diag] := by
  cases r with
  | ok a w => exact ⟨h.2, fun code w2 h2 => by cases h2⟩
  | exit code w =>
    refine ⟨h.2.1, fun code2 w2 h2 => ?_⟩
    cases h2
    exact ⟨h.1, h.2.2⟩
  | panic msg w => exact ⟨h.2, fun code w2 h2 => by cases h2⟩

/-- C6, as the code has it: when `saveIncidents` fails because the file cannot be
created, the store file is left as it was; when the write of the encoding fails after
the file was created, the file has been emptied by `os.Create` and holds only the part
of the encoding that was written before the failure. In both cases the process exits
with status 1, and a run of `main` that gets there has started no external command. -/
theorem failed_save_exits_before_any_command (env : Env) (incidents : GoMap) (w : World) :
    (∀ err, env.createErr = some err →
      (saveIncidents env incidents w).status = 1 ∧
      (saveIncidents env incidents w).world.file = w.file ∧
      (saveIncidents env incidents w).world.commands = w.commands) ∧
    (∀ written err, env.createErr = none → env.writeErr = some (written, err) →
      (saveIncidents env incidents w).status = 1 ∧
      (saveIncidents env incidents w).world.file
        = some ((env.jsonEncode incidents).take written) ∧
      (saveIncidents env incidents w).world.commands = w.commands) ∧
    (∀ (feed : Feed) (existing : GoMap) (newIncidents : List Incident) (code : Nat)
        (w2 : World),
      diffLoop feed.Entries existing [] = .ok (incidents, newIncidents) →
      0 < newIncidents.length →
      saveIncidents env incidents w = .exit code w2 →
      mainAfterLoad env feed existing w = .exit 1 w2 ∧ w2.commands = w.commands) := by
  refine ⟨?_, ?_, ?_⟩
  · intro err h
    simp [saveIncidents, h, Res.status, Res.world, World.print]
  · intro written err h1 h2
    simp [saveIncidents, h1, h2, Res.status, Res.world, World.print]
  · intro feed existing newIncidents code w2 hd hn hs
    have hcode : code = 1 ∧ w2.commands = w.commands := by
      unfold saveIncidents at hs
      split at hs
      · cases hs
        exact ⟨rfl, rfl⟩
      · split at hs
        · cases hs
          exact ⟨rfl, rfl⟩
        · cases hs
    simp [mainAfterLoad, hd, hn, hs, Res.bind, hcode.1, hcode.2]

/-- C6 as stated fails: the store file held `{}`; the write of the encoding fails after
`os.Create` emptied the file; the run exits with status 1 without any external command,
and the file is empty, not as it was. -/
theorem failed_write_leaves_file_emptied :
    (main { sampleEnv with writeErr := some (0, "no space left on device") }
      sampleWorld).status = 1 ∧
    (main { sampleEnv with writeErr := some (0, "no space left on device") }
      sampleWorld).world.commands = [] ∧
    sampleWorld.file = some "\x7b\x7d\n" ∧
    (main { sampleEnv with writeErr := some (0, "no space left on device") }
      sampleWorld).world.file = some "" ∧
    (main { sampleEnv with writeErr := some (0, "no space left on device") }
      sampleWorld).world.file ≠ sampleWorld.file := by
  decide

/-- C10, what the code does: when the store file holds the JSON value null,
`loadIncidents` accepts it and returns the nil map, and with a feed that has at least
one entry the first insertion of the diff loop panics: `main` ends with the run-time
error `assignment to entry in nil map`, exit status 2, nothing saved or committed.
On the path for a missing file the same function returns an allocated, empty map. -/
theorem null_store_file_panics (env : Env) (w : World) (content : String) (e : Entry)
    (rest : List Entry) (hget : env.httpGet = none) (hread : env.readAll = none)
    (hfeed : env.xmlUnmarshal = .ok ⟨e :: rest⟩) (hfile : w.file = some content)
    (hopen : env.openErr = none) (hnull : stripJSONSpace content = "null") :
    loadIncidents env w = .ok GoMap.nil w ∧
    main env w = .panic "assignment to entry in nil map" w ∧
    (main env w).status = 2 ∧
    loadIncidents env { w with file := none } = .ok (GoMap.table ∅) { w with file := none } := by
  have hl : loadIncidents env w = .ok GoMap.nil w := by
    simp [loadIncidents, osOpen, hfile, hopen, jsonDecode, hnull]
  have hm : main env w = .panic "assignment to entry in nil map" w := by
    simp [main, hget, hread, hfeed, hl, Res.bind, mainAfterLoad, diffLoop_nil]
  exact ⟨hl, hm, by rw [hm]; rfl, by simp [loadIncidents, osOpen, hopen]⟩

/-- C10 at the failing input: the store file holds `null` and the feed has the entry
`e1`. -/
theorem null_store_file_panics_witness :
    stripJSONSpace "null\n" = "null" ∧
    main { sampleEnv with xmlUnmarshal := .ok ⟨[sampleEntry1]⟩ }
        { sampleWorld with file := some "null\n" }
      = .panic "assignment to entry in nil map" { sampleWorld with file := some "null\n" } :=
  ⟨by decide,
    (null_store_file_panics { sampleEnv with xmlUnmarshal := .ok ⟨[sampleEntry1]⟩ }
      { sampleWorld with file := some "null\n" } "null\n" sampleEntry1 [] rfl rfl rfl rfl rfl
      (by decide)).2.1⟩

end HetznerStatus
